/-
Verification of the tenant-isolated storage/query gateway of the
`sqlite_interface` bot (src/bot.py).

The development shallowly embeds the gateway code:
  * `user_table`       — src/bot.py `DB.user_table` (SHA-256 based tenant table names),
  * `DB.query`         — src/bot.py `DB.query` (placeholder scoping, error policy),
  * `DB.upload_df`     — src/bot.py `DB.upload_df` (append ingestion),
  * `DB.create_tables` / `DB.post_init` — the schema bootstrap on first open,
  * `upload_csv`       — the upload handler's extension dispatch.

External collaborators (Python's `hashlib`, `str`, `str.replace`, the
sqlite3/pandas execution pipeline) are modelled executably: SHA-256 is
implemented in full, decimal integer rendering mirrors Python `str(int)`,
`replaceAll` mirrors `str.replace`, and a small SQL engine models the
statement forms the gateway exercises (`SELECT * FROM t`,
`SELECT * FROM t1 UNION ALL SELECT * FROM t2`, `CREATE TABLE`, `COMMIT`),
including the pandas behaviour that a row-less statement executed through
`pd.read_sql` raises `TypeError: 'NoneType' object is not iterable`.
-/
import Mathlib

set_option maxRecDepth 10000

/-! ## SHA-256 (model of Python's `hashlib.sha256`) -/

/-- Truncation to a 32-bit word. -/
def w32 (n : Nat) : Nat := n % 4294967296

/-- Bounded bisection: largest `x` in `[lo, hi)` with `f x ≤ target`,
assuming `f lo ≤ target`. -/
def bisect (f : Nat → Nat) (target : Nat) : Nat → Nat → Nat → Nat
  | 0, lo, _ => lo
  | fuel + 1, lo, hi =>
    if hi ≤ lo + 1 then lo
    else
      let mid := (lo + hi) / 2
      if f mid ≤ target then bisect f target fuel mid hi
      else bisect f target fuel lo mid

/-- Integer cube root. -/
def iroot3 (n : Nat) : Nat := bisect (fun x => x * x * x) n 200 0 (n + 1)

/-- Integer square root (bisection, kernel-friendly). -/
def iroot2 (n : Nat) : Nat := bisect (fun x => x * x) n 200 0 (n + 1)

/-- The first 64 primes (sources of the SHA-256 round constants). -/
def primes64 : List Nat :=
  [2, 3, 5, 7, 11, 13, 17, 19, 23, 29, 31, 37, 41, 43, 47, 53,
   59, 61, 67, 71, 73, 79, 83, 89, 97, 101, 103, 107, 109, 113, 127, 131,
   137, 139, 149, 151, 157, 163, 167, 173, 179, 181, 191, 193, 197, 199, 211, 223,
   227, 229, 233, 239, 241, 251, 257, 263, 269, 271, 277, 281, 283, 293, 307, 311]

/-- SHA-256 round constants: fractional parts of cube roots of the first 64 primes. -/
def K256 : List Nat := primes64.map (fun p => w32 (iroot3 (p * 2 ^ 96)))

/-- SHA-256 initial hash words: fractional parts of square roots of the first 8 primes. -/
def H256 : List Nat := [2, 3, 5, 7, 11, 13, 17, 19].map (fun p => w32 (iroot2 (p * 2 ^ 64)))

/-- 32-bit right rotation. -/
def rotr32 (x n : Nat) : Nat := w32 ((x >>> n) ||| (x <<< (32 - n)))

def bigS0 (x : Nat) : Nat := (rotr32 x 2) ^^^ (rotr32 x 13) ^^^ (rotr32 x 22)
def bigS1 (x : Nat) : Nat := (rotr32 x 6) ^^^ (rotr32 x 11) ^^^ (rotr32 x 25)
def smallS0 (x : Nat) : Nat := (rotr32 x 7) ^^^ (rotr32 x 18) ^^^ (x >>> 3)
def smallS1 (x : Nat) : Nat := (rotr32 x 17) ^^^ (rotr32 x 19) ^^^ (x >>> 10)
def chFn (x y z : Nat) : Nat := (x &&& y) ^^^ ((x ^^^ 4294967295) &&& z)
def majFn (x y z : Nat) : Nat := (x &&& y) ^^^ (x &&& z) ^^^ (y &&& z)

/-- Big-endian byte rendering of `n` on `k` bytes. -/
def beBytes (k n : Nat) : List Nat :=
  (List.range k).map (fun i => (n >>> (8 * (k - 1 - i))) % 256)

/-- UTF-8 encoding of one character (model of Python `str.encode('utf-8')`). -/
def utf8EncodeChar (c : Char) : List Nat :=
  let n := c.toNat
  if n < 128 then [n]
  else if n < 2048 then [192 ||| (n >>> 6), 128 ||| (n &&& 63)]
  else if n < 65536 then
    [224 ||| (n >>> 12), 128 ||| ((n >>> 6) &&& 63), 128 ||| (n &&& 63)]
  else
    [240 ||| (n >>> 18), 128 ||| ((n >>> 12) &&& 63),
     128 ||| ((n >>> 6) &&& 63), 128 ||| (n &&& 63)]

/-- UTF-8 bytes of a string. -/
def strBytes (s : String) : List Nat := s.data.flatMap utf8EncodeChar

/-- SHA-256 padding: `0x80`, zeros to 56 mod 64, then the 64-bit bit length. -/
def padMsg (m : List Nat) : List Nat :=
  let len := m.length
  let zeros := (56 + 64 - ((len + 1) % 64)) % 64
  m ++ 128 :: List.replicate zeros 0 ++ beBytes 8 (8 * len)

/-- Split a byte list into 64-byte blocks (fuel-based so the kernel can
evaluate it; the fuel `l.length` always suffices). -/
def chunks64Aux : Nat → List Nat → List (List Nat)
  | 0, _ => []
  | _, [] => []
  | fuel + 1, l => l.take 64 :: chunks64Aux fuel (l.drop 64)

def chunks64 (l : List Nat) : List (List Nat) := chunks64Aux l.length l

/-- The sixteen 32-bit big-endian words of a 64-byte block. -/
def blockWords (b : List Nat) : List Nat :=
  (List.range 16).map (fun i =>
    (b.getD (4 * i) 0) <<< 24 ||| (b.getD (4 * i + 1) 0) <<< 16 |||
    (b.getD (4 * i + 2) 0) <<< 8 ||| b.getD (4 * i + 3) 0)

/-- Message-schedule extension: append `k` further words. -/
def extendW (w : List Nat) : Nat → List Nat
  | 0 => w
  | k + 1 =>
    let t := w.length
    extendW
      (w ++ [w32 (smallS1 (w.getD (t - 2) 0) + w.getD (t - 7) 0 +
                  smallS0 (w.getD (t - 15) 0) + w.getD (t - 16) 0)]) k

/-- The eight working variables of the compression function. -/
structure H8 where
  a : Nat
  b : Nat
  c : Nat
  d : Nat
  e : Nat
  f : Nat
  g : Nat
  h : Nat
deriving DecidableEq

/-- One SHA-256 round. -/
def roundStep (s : H8) (kw : Nat × Nat) : H8 :=
  let t1 := w32 (s.h + bigS1 s.e + chFn s.e s.f s.g + kw.1 + kw.2)
  let t2 := w32 (bigS0 s.a + majFn s.a s.b s.c)
  ⟨w32 (t1 + t2), s.a, s.b, s.c, w32 (s.d + t1), s.e, s.f, s.g⟩

/-- Compress one 64-byte block into the running hash. -/
def compressBlock (hs : H8) (block : List Nat) : H8 :=
  let ws := extendW (blockWords block) 48
  let s := (K256.zip ws).foldl roundStep hs
  ⟨w32 (hs.a + s.a), w32 (hs.b + s.b), w32 (hs.c + s.c), w32 (hs.d + s.d),
   w32 (hs.e + s.e), w32 (hs.f + s.f), w32 (hs.g + s.g), w32 (hs.h + s.h)⟩

/-- Initial hash state. -/
def initH8 : H8 :=
  ⟨H256.getD 0 0, H256.getD 1 0, H256.getD 2 0, H256.getD 3 0,
   H256.getD 4 0, H256.getD 5 0, H256.getD 6 0, H256.getD 7 0⟩

/-- SHA-256 digest (32 bytes) of a byte message. -/
def sha256Bytes (m : List Nat) : List Nat :=
  let hs := (chunks64 (padMsg m)).foldl compressBlock initH8
  [hs.a, hs.b, hs.c, hs.d, hs.e, hs.f, hs.g, hs.h].flatMap (beBytes 4)

/-- The sixteen lowercase hex digits. -/
def hexChars : List Char := "0123456789abcdef".data

def hexDigit (n : Nat) : Char := hexChars.getD n '0'

/-- Two lowercase hex characters of a byte (model of `digest.hexdigest()` per byte). -/
def byteHex (b : Nat) : List Char := [hexDigit (b / 16), hexDigit (b % 16)]

/-- Model of Python `hashlib.sha256(s.encode('utf-8')).hexdigest()`. -/
def sha256hex (s : String) : String :=
  String.mk ((sha256Bytes (strBytes s)).flatMap byteHex)


/-! ## Python `str(int)` (the f-string `f"{chat_id}_{SALT}"` renders `chat_id` in decimal) -/

def digitChars : List Char := "0123456789".data

def digitChar (d : Nat) : Char := digitChars.getD d '0'

/-- Little-endian decimal digits (fuel-based; fuel `n` always suffices). -/
def natDigitsAux : Nat → Nat → List Nat
  | 0, _ => []
  | _, 0 => []
  | fuel + 1, n => n % 10 :: natDigitsAux fuel (n / 10)

def natDigits (n : Nat) : List Nat := natDigitsAux n n

/-- Decimal rendering of a natural number, as Python `str`. -/
def natStr (n : Nat) : String :=
  if n = 0 then "0" else String.mk ((natDigits n).map digitChar).reverse

/-- Model of Python `str` on `int` (used by the f-string in `DB.user_table`). -/
def intStr : Int → String
  | .ofNat n => natStr n
  | .negSucc n => "-" ++ natStr (n + 1)

/-! ## Tenant Namer (src/bot.py `DB.user_table`)

`SALT` is imported from `bot_secrets`, a module of this repository that is not
under src/. Modelled from the spec: the salt is "a long-lived secret string";
it is made an explicit parameter `salt` of every definition that uses it. -/

/-- The string hashed by `DB.user_table`: Python `f"{chat_id}_{SALT}"`. -/
def hashInput (chat_id : Int) (salt : String) : String := intStr chat_id ++ "_" ++ salt

/-- src/bot.py lines 68-72: `_user_data_` followed by the full SHA-256 hex
digest of `f"{chat_id}_{SALT}"`. -/
def user_table (salt : String) (chat_id : Int) : String :=
  "_user_data_" ++ sha256hex (hashInput chat_id salt)

/-! ## String utilities (models of Python `str.replace`, `str.endswith`,
`str.split`, and of whitespace tokenization used by the SQL engine model) -/

/-- Boolean prefix test on character lists. -/
def isPfx : List Char → List Char → Bool
  | [], _ => true
  | _ :: _, [] => false
  | a :: as, b :: bs => a == b && isPfx as bs

/-- Boolean substring test: does `pat` occur contiguously in the list? -/
def hasSubstr (pat : List Char) : List Char → Bool
  | [] => pat.isEmpty
  | c :: cs => isPfx pat (c :: cs) || hasSubstr pat cs

/-- Model of Python `str.replace` for a nonempty pattern: replace every
non-overlapping occurrence, scanning left to right (fuel-based; fuel
`s.length` always suffices for a nonempty pattern). -/
def replaceAllAux (pat repl : List Char) : Nat → List Char → List Char
  | 0, s => s
  | _ + 1, [] => []
  | fuel + 1, c :: cs =>
    if isPfx pat (c :: cs) then
      repl ++ replaceAllAux pat repl fuel (List.drop pat.length (c :: cs))
    else c :: replaceAllAux pat repl fuel cs

def replaceAll (pat repl s : List Char) : List Char := replaceAllAux pat repl s.length s

/-- `s.replace(pat, repl)` (for the nonempty patterns the gateway uses). -/
def pyReplace (s pat repl : String) : String := String.mk (replaceAll pat.data repl.data s.data)

/-- Whitespace tokenizer (accumulator holds the current word reversed). -/
def wordsAux : List Char → List Char → List (List Char)
  | [], cur => if cur = [] then [] else [cur.reverse]
  | c :: cs, cur =>
    if c.isWhitespace then
      if cur = [] then wordsAux cs [] else cur.reverse :: wordsAux cs []
    else wordsAux cs (c :: cur)

def splitWs (l : List Char) : List (List Char) := wordsAux l []

/-- Model of Python `fn.split(".")`. -/
def splitDots : List Char → List (List Char)
  | [] => [[]]
  | c :: cs =>
    let r := splitDots cs
    if c = '.' then [] :: r else (c :: r.headD []) :: r.tail

/-- Model of Python `fn.split(".")[-1]`. -/
def lastSeg (fn : String) : String := String.mk ((splitDots fn.data).getLastD [])

def isSfx (p s : List Char) : Bool := isPfx p.reverse s.reverse

/-- Model of Python `s.endswith(suffix)`. -/
def pyEndsWith (s suffix : String) : Bool := isSfx suffix.data s.data

/-- Join segments with a separator: `joinSep sep [p0, ..., pn]` contains
exactly `n` separator occurrences (used to state multi-occurrence
substitution). -/
def joinSep (sep : List Char) : List (List Char) → List Char
  | [] => []
  | p :: ps =>
    match ps with
    | [] => p
    | _ :: _ => p ++ sep ++ joinSep sep ps

/-- Association-list update (used to model table/file stores). -/
def setAssoc {κ α : Type} [DecidableEq κ] : List (κ × α) → κ → α → List (κ × α)
  | [], k, v => [(k, v)]
  | (k', v') :: t, k, v =>
    if k' = k then (k, v) :: t else (k', v') :: setAssoc t k v

/-! ## Tabular data model and the SQL engine model

The engine models the external sqlite3/pandas pipeline on the statement
forms the gateway exercises. `pd.read_sql` over a statement that returns no
rows (e.g. `CREATE TABLE`, `COMMIT`) executes the statement and then raises
`TypeError("'NoneType' object is not iterable")` while assembling the
DataFrame from the row-less cursor — the origin of the gateway's sentinel. -/

inductive Value
  | str (s : String)
  | num (n : Int)
  | null
deriving DecidableEq

/-- A Tabular Dataset: named columns plus rows (model of a DataFrame /
sqlite table contents, rows kept in insertion order). -/
structure Table where
  cols : List String
  rows : List (List Value)
deriving DecidableEq

/-- The sqlite database contents: tables by name. -/
abbrev DBState := List (String × Table)

/-- Statement forms of the engine model. -/
inductive Stmt
  | select1 (t : String)
  | selectU (t1 t2 : String)
  | createT (t : String)
  | commit
  | bad
deriving DecidableEq

/-- Whitespace tokens of a query text. -/
def tokens (q : String) : List String := (splitWs q.data).map String.mk

def parseStmt : List String → Stmt
  | [a] => if a = "COMMIT" then .commit else .bad
  | [a, b, c, t] =>
    if a = "SELECT" ∧ b = "*" ∧ c = "FROM" then .select1 t
    else if a = "CREATE" ∧ b = "TABLE" then .createT c
    else .bad
  | [a, b, c, t1, u, al, a2, b2, c2, t2] =>
    if a = "SELECT" ∧ b = "*" ∧ c = "FROM" ∧ u = "UNION" ∧ al = "ALL" ∧
       a2 = "SELECT" ∧ b2 = "*" ∧ c2 = "FROM" then .selectU t1 t2
    else if a = "CREATE" ∧ b = "TABLE" then .createT c
    else .bad
  | a :: b :: t :: _ => if a = "CREATE" ∧ b = "TABLE" then .createT t else .bad
  | _ => .bad

inductive EngineResult
  | ok (res : Option Table)
  | err (msg : String)
deriving DecidableEq

def execStmt (s : Stmt) (st : DBState) : DBState × EngineResult :=
  match s with
  | .select1 t =>
    match st.lookup t with
    | some tbl => (st, .ok (some tbl))
    | none => (st, .err ("no such table: " ++ t))
  | .selectU t1 t2 =>
    match st.lookup t1 with
    | none => (st, .err ("no such table: " ++ t1))
    | some tb1 =>
      match st.lookup t2 with
      | none => (st, .err ("no such table: " ++ t2))
      | some tb2 => (st, .ok (some ⟨tb1.cols, tb1.rows ++ tb2.rows⟩))
  | .createT t =>
    match st.lookup t with
    | some _ => (st, .err ("table " ++ t ++ " already exists"))
    | none => (setAssoc st t ⟨["A"], []⟩, .ok none)
  | .commit => (st, .ok none)
  | .bad => (st, .err "syntax error")

/-- Executing one SQL text against the connection: parse the tokens, run. -/
def engineExec (q : String) (st : DBState) : DBState × EngineResult :=
  execStmt (parseStmt (tokens q)) st

def refsOfStmt : Stmt → List String
  | .select1 t => [t]
  | .selectU t1 t2 => [t1, t2]
  | .createT t => [t]
  | .commit => []
  | .bad => []

/-- The table names a query text's execution consults. -/
def referencedTables (q : String) : List String := refsOfStmt (parseStmt (tokens q))

/-! ## Storage Gateway (src/bot.py class `DB`) -/

/-- The gateway's sentinel text (src/bot.py line 99). -/
def sentinelText : String := "'NoneType' object is not iterable"

inductive QueryOutcome
  | raised (msg : String)
  | df (t : Table)
  | pyNone
  | cursor
deriving DecidableEq

/-- src/bot.py line 101: `pd.DataFrame([{"Exception_text": exc_txt}])`. -/
def errorTable (msg : String) : Table := ⟨["Exception_text"], [[Value.str msg]]⟩

/-- src/bot.py lines 95-101: the `except` branch of `DB.query`. -/
def handleFault (st : DBState) (msg : String) (raise_on_error : Bool) :
    DBState × QueryOutcome :=
  if raise_on_error then (st, .raised msg)
  else if msg = sentinelText then (st, .pyNone)
  else (st, .df (errorTable msg))

/-- src/bot.py lines 87-89: `if chat_id:` (Python truthiness — `None` and `0`
are falsy) guards the substitution `query_text.replace(":tbl", table_name)`. -/
def scopedText (salt : String) (chat_id : Option Int) (q : String) : String :=
  match chat_id with
  | none => q
  | some c => if c = 0 then q else pyReplace q ":tbl" (user_table salt c)

/-- The `try` body and `except` clause of `DB.query`, applied to the engine's
result: `pd.read_sql` turns a row set into a DataFrame and raises the
sentinel `TypeError` on a row-less statement; `conn.execute` (the
`safe=True` path) returns a cursor; faults go through the `except` branch. -/
def queryRun (safe raise_on_error : Bool) : DBState × EngineResult → DBState × QueryOutcome
  | (st', .ok (some tbl)) => if safe then (st', .cursor) else (st', .df tbl)
  | (st', .ok none) =>
    if safe then (st', .cursor) else handleFault st' sentinelText raise_on_error
  | (st', .err m) => handleFault st' m raise_on_error

/-- src/bot.py lines 78-102, `DB.query` (the `params` dict is not modelled:
no claim exercises named-parameter binding). Returns the connection state
after execution together with the outcome: a raised fault, a DataFrame, the
Python value `None`, or a cursor (the `safe=True` result). -/
def DB.query (salt : String) (st : DBState) (query_text : String)
    (chat_id : Option Int) (safe raise_on_error : Bool) : DBState × QueryOutcome :=
  queryRun safe raise_on_error (engineExec (scopedText salt chat_id query_text) st)

/-- The fault description, if any, that executing `q` produces inside
`DB.query` (engine faults, plus the pandas `TypeError` sentinel for row-less
statements read through `pd.read_sql`). -/
def queryFault (safe : Bool) (q : String) (st : DBState) : Option String :=
  match (engineExec q st).2 with
  | .ok res =>
    if safe then none
    else match res with
      | some _ => none
      | none => some sentinelText
  | .err m => some m

/-- The bootstrap statement of src/bot.py lines 59-64 (triple-quoted). -/
def createStmt : String :=
  "\n           CREATE TABLE DUMMY\n           (\n           A int\n           )\n           "

/-- src/bot.py lines 58-66: `DB.create_tables` runs the marker-table CREATE
through `self.query(..., raise_on_error=False)` (no tenant, so the salt is
irrelevant; `""` is passed). The outcome is discarded by the source. -/
def DB.create_tables (st : DBState) : DBState × QueryOutcome :=
  DB.query "" st createStmt none false false

/-- src/bot.py lines 74-76: `df.to_sql(self.user_table(chat_id), ...,
if_exists="append")` — create the tenant table with the DataFrame's shape if
absent, else append the rows. -/
def DB.upload_df (salt : String) (st : DBState) (df : Table) (chat_id : Int) : DBState :=
  let name := user_table salt chat_id
  match st.lookup name with
  | some old => setAssoc st name ⟨old.cols, old.rows ++ df.rows⟩
  | none => setAssoc st name df

/-- The filesystem: sqlite files by path, each with its table store. -/
abbrev World := List (String × DBState)

def fileExists (w : World) (p : String) : Bool := (w.lookup p).isSome

structure OpenResult where
  world : World
  st : DBState
  ranBootstrap : Bool
  bootOutcome : Option QueryOutcome
deriving DecidableEq

/-- src/bot.py lines 35-40, `DB.__post_init__`: check `os.path.exists`,
`connect` (which creates a missing file), and run `create_tables` only when
the file did not previously exist. -/
def DB.post_init (w : World) (p : String) : OpenResult :=
  if fileExists w p then
    { world := w, st := (w.lookup p).getD [], ranBootstrap := false, bootOutcome := none }
  else
    let r := DB.create_tables []
    { world := setAssoc w p r.1, st := r.1, ranBootstrap := true, bootOutcome := some r.2 }

/-! ## Tabular Ingestor (src/bot.py `upload_csv`) -/

inductive PdReader
  | readCsv
  | readExcel
deriving DecidableEq

/-- Python dict-literal semantics for the dispatch table of src/bot.py lines
110-114: entries are inserted in order, a later duplicate key overwrites. -/
def pyDictBool (entries : List (Bool × PdReader)) : List (Bool × PdReader) :=
  entries.foldl (fun d kv => setAssoc d kv.1 kv.2) []

/-- src/bot.py lines 110-114: `{fn.endswith(".csv"): pd.read_csv,
fn.endswith(".xlsx"): pd.read_excel, fn.endswith(".xls"): pd.read_excel}
.get(True, None)`. -/
def chooseMeth (fn : String) : Option PdReader :=
  (pyDictBool
    [(pyEndsWith fn ".csv", .readCsv),
     (pyEndsWith fn ".xlsx", .readExcel),
     (pyEndsWith fn ".xls", .readExcel)]).lookup true

/-- Model of `DB_LOCATION` (an absolute path; its exact text is irrelevant). -/
def dbLocation : String := "data/bot_db.sqlite"

inductive UploadOutcome
  | unsupported (msg : String)
  | uploaded
deriving DecidableEq

/-- src/bot.py lines 105-132, `upload_csv`: dispatch on the declared filename;
an unrecognized extension raises `TypeError("Unsupported file type: " +
fn.split(".")[-1])` before the temporary file, the connection or storage is
touched; otherwise the parsed DataFrame is appended to the tenant table of
the single database file. -/
def upload_csv (w : World) (salt : String) (fn : String) (parsed : Table)
    (chat_id : Int) : World × UploadOutcome :=
  match chooseMeth fn with
  | none => (w, .unsupported ("Unsupported file type: " ++ lastSeg fn))
  | some _ =>
    let o := DB.post_init w dbLocation
    let st1 := DB.upload_df salt o.st parsed chat_id
    (setAssoc o.world dbLocation st1, .uploaded)

/-! ## Association-store lemmas -/

/-- Validation of the SHA-256 model against the official "abc" test vector. -/
theorem sha256hex_abc :
    sha256hex "abc" = "ba7816bf8f01cfea414140de5dae2223b00361a396177a9cb410ff61f20015ad" := by
  decide

theorem lookup_setAssoc_self {α : Type} (l : List (String × α)) (k : String) (v : α) :
    (setAssoc l k v).lookup k = some v := by
  induction l with
  | nil => simp [setAssoc, List.lookup]
  | cons hd t ih =>
    obtain ⟨k', v'⟩ := hd
    by_cases h : k' = k
    · simp [setAssoc, h, List.lookup]
    · have hne : (k == k') = false := beq_eq_false_iff_ne.mpr (Ne.symm h)
      simp [setAssoc, if_neg h, List.lookup, hne, ih]

theorem lookup_setAssoc_ne {α : Type} (l : List (String × α)) (k : String) (v : α)
    (t : String) (h : t ≠ k) : (setAssoc l k v).lookup t = l.lookup t := by
  have htk : (t == k) = false := beq_eq_false_iff_ne.mpr h
  induction l with
  | nil => simp [setAssoc, List.lookup, htk]
  | cons hd tl ih =>
    obtain ⟨k', v'⟩ := hd
    by_cases hk : k' = k
    · subst hk
      simp [setAssoc, List.lookup, htk]
    · simp only [setAssoc, if_neg hk, List.lookup]
      cases h' : (t == k') <;> simp [h', ih]

theorem lookup_upload_ne (salt : String) (st : DBState) (df : Table) (c : Int)
    (t : String) (h : t ≠ user_table salt c) :
    (DB.upload_df salt st df c).lookup t = st.lookup t := by
  simp only [DB.upload_df]
  cases hl : st.lookup (user_table salt c) with
  | none => exact lookup_setAssoc_ne _ _ _ _ h
  | some old => exact lookup_setAssoc_ne _ _ _ _ h

/-! ## Frame property of the engine: execution consults only the tables the
statement references, so the outcome is insensitive to other tables. -/

theorem execStmt_frame (s : Stmt) (st1 st2 : DBState)
    (h : ∀ t ∈ refsOfStmt s, st1.lookup t = st2.lookup t) :
    (execStmt s st1).2 = (execStmt s st2).2 := by
  cases s with
  | select1 t =>
    have ht := h t (by simp [refsOfStmt])
    simp only [execStmt, ht]
    cases List.lookup t st2 <;> rfl
  | selectU t1 t2 =>
    have h1 := h t1 (by simp [refsOfStmt])
    have h2 := h t2 (by simp [refsOfStmt])
    simp only [execStmt, h1, h2]
    cases List.lookup t1 st2 with
    | none => rfl
    | some tb1 => cases List.lookup t2 st2 <;> rfl
  | createT t =>
    have ht := h t (by simp [refsOfStmt])
    simp only [execStmt, ht]
    cases st2.lookup t <;> rfl
  | commit => rfl
  | bad => rfl

theorem handleFault_snd (st st' : DBState) (m : String) (roe : Bool) :
    (handleFault st m roe).2 = (handleFault st' m roe).2 := by
  unfold handleFault
  split_ifs <;> rfl

theorem queryRun_snd (safe roe : Bool) (st1 st2 : DBState) (r : EngineResult) :
    (queryRun safe roe (st1, r)).2 = (queryRun safe roe (st2, r)).2 := by
  cases r with
  | ok res =>
    cases res with
    | none =>
      simp only [queryRun]
      split_ifs
      · rfl
      · exact handleFault_snd _ _ _ _
    | some tbl =>
      simp only [queryRun]
      split_ifs <;> rfl
  | err m => exact handleFault_snd _ _ _ _

/-- The outcome of `DB.query` depends on the connection state only through
the engine result of the scoped text. -/
theorem query_snd_congr (salt : String) (st1 st2 : DBState) (q : String)
    (cid : Option Int) (safe roe : Bool)
    (h : (engineExec (scopedText salt cid q) st1).2 =
         (engineExec (scopedText salt cid q) st2).2) :
    (DB.query salt st1 q cid safe roe).2 = (DB.query salt st2 q cid safe roe).2 := by
  unfold DB.query
  calc (queryRun safe roe (engineExec (scopedText salt cid q) st1)).2
      = (queryRun safe roe ((engineExec (scopedText salt cid q) st1).1,
          (engineExec (scopedText salt cid q) st2).2)).2 := by rw [← h]
    _ = (queryRun safe roe ((engineExec (scopedText salt cid q) st2).1,
          (engineExec (scopedText salt cid q) st2).2)).2 := queryRun_snd _ _ _ _ _
    _ = (queryRun safe roe (engineExec (scopedText salt cid q) st2)).2 := rfl

/-! ## Character-level facts about tenant table names -/

theorem hexDigit_mem (n : Nat) : hexDigit n ∈ hexChars := by
  by_cases h : n < hexChars.length
  · rw [hexDigit, List.getD_eq_getElem _ _ h]
    exact List.getElem_mem h
  · rw [hexDigit, List.getD_eq_default _ _ (Nat.le_of_not_lt h)]
    decide

theorem sha256hex_chars (s : String) : ∀ c ∈ (sha256hex s).data, c ∈ hexChars := by
  intro c hc
  have : c ∈ (sha256Bytes (strBytes s)).flatMap byteHex := hc
  rw [List.mem_flatMap] at this
  obtain ⟨b, _, hb⟩ := this
  simp only [byteHex, List.mem_cons, List.mem_singleton] at hb
  rcases hb with h | h | h
  · exact h ▸ hexDigit_mem _
  · exact h ▸ hexDigit_mem _
  · exact absurd h (List.not_mem_nil c)

theorem beBytes_length (k n : Nat) : (beBytes k n).length = k := by
  simp [beBytes]

theorem flatMap_byteHex_length (l : List Nat) : (l.flatMap byteHex).length = 2 * l.length := by
  induction l with
  | nil => rfl
  | cons b t ih =>
    simp only [List.flatMap_cons, List.length_append, ih, byteHex]
    simp
    omega

theorem sha256Bytes_length (m : List Nat) : (sha256Bytes m).length = 32 := by
  simp [sha256Bytes, List.length_flatMap, Function.comp, beBytes_length]

theorem sha256hex_data_length (s : String) : (sha256hex s).data.length = 64 := by
  show ((sha256Bytes (strBytes s)).flatMap byteHex).length = 64
  rw [flatMap_byteHex_length, sha256Bytes_length]

theorem user_table_data (salt : String) (c : Int) :
    (user_table salt c).data = "_user_data_".data ++ (sha256hex (hashInput c salt)).data :=
  String.data_append _ _

theorem user_table_no_ws (salt : String) (c : Int) :
    ∀ ch ∈ (user_table salt c).data, ch.isWhitespace = false := by
  intro ch hch
  rw [user_table_data, List.mem_append] at hch
  rcases hch with h | h
  · have hpre : ∀ x ∈ "_user_data_".data, x.isWhitespace = false := by decide
    exact hpre ch h
  · have hhex : ∀ x ∈ hexChars, x.isWhitespace = false := by decide
    exact hhex ch (sha256hex_chars _ ch h)

theorem user_table_no_colon (salt : String) (c : Int) :
    ∀ ch ∈ (user_table salt c).data, ch ≠ ':' := by
  intro ch hch
  rw [user_table_data, List.mem_append] at hch
  rcases hch with h | h
  · have hpre : ∀ x ∈ "_user_data_".data, x ≠ ':' := by decide
    exact hpre ch h
  · have hhex : ∀ x ∈ hexChars, x ≠ ':' := by decide
    exact hhex ch (sha256hex_chars _ ch h)

theorem user_table_ne_nil (salt : String) (c : Int) : (user_table salt c).data ≠ [] := by
  intro h
  have := congrArg List.length h
  rw [user_table_data] at this
  simp at this

theorem user_table_length (salt : String) (c : Int) : (user_table salt c).length = 75 := by
  show (user_table salt c).data.length = 75
  rw [user_table_data, List.length_append, sha256hex_data_length]
  rfl

/-! ## The placeholder substitution: `str.replace(":tbl", name)` lemmas -/

theorem isPfx_tbl_false (c : Char) (cs : List Char) (h : c ≠ ':') :
    isPfx ":tbl".data (c :: cs) = false := by
  have hb : (':' == c) = false := beq_eq_false_iff_ne.mpr (Ne.symm h)
  show (':' == c && isPfx "tbl".data cs) = false
  rw [hb, Bool.false_and]

theorem isPfx_append_self (p s : List Char) : isPfx p (p ++ s) = true := by
  induction p with
  | nil => rfl
  | cons a as ih => simp [isPfx, ih]

theorem replaceAllAux_nil (pat repl : List Char) (fuel : Nat) :
    replaceAllAux pat repl fuel [] = [] := by
  cases fuel <;> rfl

theorem replaceAllAux_fuel (repl : List Char) :
    ∀ fuel1 fuel2 s, s.length ≤ fuel1 → s.length ≤ fuel2 →
      replaceAllAux ":tbl".data repl fuel1 s = replaceAllAux ":tbl".data repl fuel2 s := by
  intro fuel1
  induction fuel1 with
  | zero =>
    intro fuel2 s h1 _
    have : s = [] := List.length_eq_zero.mp (Nat.le_zero.mp h1)
    subst this
    rw [replaceAllAux_nil, replaceAllAux_nil]
  | succ f ih =>
    intro fuel2 s h1 h2
    cases s with
    | nil => rw [replaceAllAux_nil, replaceAllAux_nil]
    | cons c cs =>
      cases fuel2 with
      | zero => simp at h2
      | succ f2 =>
        simp only [replaceAllAux]
        by_cases hp : isPfx ":tbl".data (c :: cs) = true
        · simp only [hp, if_true]
          have hlen : (":tbl".data).length = 4 := rfl
          have h1' : cs.length + 1 ≤ f + 1 := by simpa using h1
          have h2' : cs.length + 1 ≤ f2 + 1 := by simpa using h2
          have hd : (List.drop ":tbl".data.length (c :: cs)).length ≤ f := by
            simp only [List.length_drop, List.length_cons, hlen]
            omega
          have hd2 : (List.drop ":tbl".data.length (c :: cs)).length ≤ f2 := by
            simp only [List.length_drop, List.length_cons, hlen]
            omega
          rw [ih f2 _ hd hd2]
        · simp only [Bool.not_eq_true] at hp
          simp only [hp, Bool.false_eq_true, if_false]
          have hc : cs.length ≤ f := by simp only [List.length_cons] at h1; omega
          have hc2 : cs.length ≤ f2 := by simp only [List.length_cons] at h2; omega
          rw [ih f2 _ hc hc2]

theorem replaceAll_cons_ne (c : Char) (cs repl : List Char) (h : c ≠ ':') :
    replaceAll ":tbl".data repl (c :: cs) = c :: replaceAll ":tbl".data repl cs := by
  have hf : isPfx ":tbl".data (c :: cs) = false := isPfx_tbl_false c cs h
  show replaceAllAux ":tbl".data repl (cs.length + 1) (c :: cs) = _
  simp only [replaceAllAux, hf, Bool.false_eq_true, if_false]
  rfl

theorem replaceAll_no_colon_eq (s repl : List Char) (hs : ∀ c ∈ s, c ≠ ':') :
    replaceAll ":tbl".data repl s = s := by
  induction s with
  | nil => rfl
  | cons c cs ih =>
    rw [replaceAll_cons_ne _ _ _ (hs c (by simp)),
        ih (fun c' h' => hs c' (by simp [h']))]

theorem replaceAll_append_no_colon (x s repl : List Char) (hx : ∀ c ∈ x, c ≠ ':') :
    replaceAll ":tbl".data repl (x ++ s) = x ++ replaceAll ":tbl".data repl s := by
  induction x with
  | nil => rfl
  | cons c x' ih =>
    have hc : c ≠ ':' := hx c (by simp)
    rw [List.cons_append, replaceAll_cons_ne _ _ _ hc,
        ih (fun c' h' => hx c' (by simp [h'])), List.cons_append]

theorem replaceAllAux_pat_step (repl s : List Char) (fuel : Nat) :
    replaceAllAux ":tbl".data repl (fuel + 1) (':' :: 't' :: 'b' :: 'l' :: s)
      = repl ++ replaceAllAux ":tbl".data repl fuel s := by
  have hp : isPfx ":tbl".data (':' :: 't' :: 'b' :: 'l' :: s) = true :=
    isPfx_append_self ":tbl".data s
  simp only [replaceAllAux, hp, if_true]
  rfl

theorem replaceAll_pat_prefix (repl s : List Char) :
    replaceAll ":tbl".data repl (":tbl".data ++ s) = repl ++ replaceAll ":tbl".data repl s := by
  show replaceAllAux ":tbl".data repl ((':' :: 't' :: 'b' :: 'l' :: s).length)
      (':' :: 't' :: 'b' :: 'l' :: s) = _
  have hl : (':' :: 't' :: 'b' :: 'l' :: s : List Char).length = s.length + 3 + 1 := by
    simp only [List.length_cons]
  rw [hl, replaceAllAux_pat_step]
  exact congrArg (repl ++ ·) (replaceAllAux_fuel repl _ _ s (by omega) (by omega))

theorem hasSubstr_tbl_false (s : List Char) (hs : ∀ c ∈ s, c ≠ ':') :
    hasSubstr ":tbl".data s = false := by
  induction s with
  | nil => rfl
  | cons c cs ih =>
    have hc : isPfx ":tbl".data (c :: cs) = false := isPfx_tbl_false c cs (hs c (by simp))
    show (isPfx ":tbl".data (c :: cs) || hasSubstr ":tbl".data cs) = false
    rw [hc, ih (fun c' h' => hs c' (by simp [h'])), Bool.or_self]

theorem joinSep_chars (sep : List Char) (hsep : ∀ c ∈ sep, c ≠ ':') :
    ∀ parts, (∀ p ∈ parts, ∀ c ∈ p, c ≠ ':') → ∀ c ∈ joinSep sep parts, c ≠ ':' := by
  intro parts
  induction parts with
  | nil =>
    intro _ c hc
    simp [joinSep] at hc
  | cons p ps ih =>
    intro hp c hc
    cases ps with
    | nil => exact hp p (by simp) c hc
    | cons q ps' =>
      have hc' : c ∈ (p ++ sep) ++ joinSep sep (q :: ps') := hc
      rw [List.mem_append, List.mem_append] at hc'
      rcases hc' with (hc' | hc') | hc'
      · exact hp p (by simp) c hc'
      · exact hsep c hc'
      · exact ih (fun r hr => hp r (by simp [hr])) c hc' 

theorem replaceAll_joinSep (repl : List Char) :
    ∀ parts, (∀ p ∈ parts, ∀ c ∈ p, c ≠ ':') →
      replaceAll ":tbl".data repl (joinSep ":tbl".data parts) = joinSep repl parts := by
  intro parts
  induction parts with
  | nil => intro _; rfl
  | cons p ps ih =>
    intro hp
    cases ps with
    | nil => exact replaceAll_no_colon_eq p repl (hp p (by simp))
    | cons q ps' =>
      show replaceAll ":tbl".data repl ((p ++ ":tbl".data) ++ joinSep ":tbl".data (q :: ps'))
          = (p ++ repl) ++ joinSep repl (q :: ps')
      rw [List.append_assoc p ":tbl".data, List.append_assoc p repl,
          replaceAll_append_no_colon _ _ _ (hp p (by simp)), replaceAll_pat_prefix,
          ih (fun r hr => hp r (by simp [hr]))]

/-! ## General substitution lemmas: segments need only be free of the
pattern `:tbl` itself (they may contain other colons, e.g. named
parameters). The pattern `:tbl` has no nontrivial self-overlap, so no
occurrence can span a segment/separator boundary. -/

theorem isPfx_append_of_length :
    ∀ (pat a b : List Char), pat.length ≤ a.length → isPfx pat (a ++ b) = isPfx pat a := by
  intro pat
  induction pat with
  | nil => intro a b _; rfl
  | cons p ps ih =>
    intro a b hlen
    cases a with
    | nil => simp at hlen
    | cons x a' =>
      show ((p == x) && isPfx ps (a' ++ b)) = ((p == x) && isPfx ps a')
      rw [ih a' b (by simpa using hlen)]

/-- No occurrence of `:tbl` can start within the last three characters of a
segment when the continuation starts with a character other than `t`, `b`,
`l`: the pattern has no self-overlap. -/
theorem isPfx_tbl_short_mismatch (s' : List Char) (h1 : s' ≠ []) (h3 : s'.length ≤ 3)
    (d : Char) (rest : List Char)
    (hd : ('t' == d) = false ∧ ('b' == d) = false ∧ ('l' == d) = false) :
    isPfx ":tbl".data (s' ++ d :: rest) = false := by
  rcases s' with _ | ⟨a, _ | ⟨b, _ | ⟨c3, _ | ⟨e, t⟩⟩⟩⟩
  · exact absurd rfl h1
  · show ((':' == a) && (('t' == d) && isPfx ['b', 'l'] rest)) = false
    rw [hd.1]
    simp
  · show ((':' == a) && (('t' == b) && (('b' == d) && isPfx ['l'] rest))) = false
    rw [hd.2.1]
    simp
  · show ((':' == a) && (('t' == b) && (('b' == c3) && (('l' == d) && isPfx [] rest)))) = false
    rw [hd.2.2]
    simp
  · simp only [List.length_cons] at h3
    omega

theorem replaceAll_cons_nomatch (c : Char) (cs repl : List Char)
    (hf : isPfx ":tbl".data (c :: cs) = false) :
    replaceAll ":tbl".data repl (c :: cs) = c :: replaceAll ":tbl".data repl cs := by
  show replaceAllAux ":tbl".data repl (cs.length + 1) (c :: cs) = _
  simp only [replaceAllAux, hf, Bool.false_eq_true, if_false]
  rfl

theorem replaceAll_of_no_substr (repl : List Char) :
    ∀ s, hasSubstr ":tbl".data s = false → replaceAll ":tbl".data repl s = s := by
  intro s
  induction s with
  | nil => intro _; rfl
  | cons c cs ih =>
    intro hs
    have hs' : (isPfx ":tbl".data (c :: cs) || hasSubstr ":tbl".data cs) = false := hs
    rw [Bool.or_eq_false_iff] at hs'
    rw [replaceAll_cons_nomatch _ _ _ hs'.1, ih hs'.2]

/-- The replace scan copies a pattern-free segment unchanged and then hits
the separator occurrence: no match can start inside the segment (it would
be an occurrence in the segment) or straddle the boundary (no
self-overlap). -/
theorem replaceAll_append_tblfree (repl : List Char) :
    ∀ x s, hasSubstr ":tbl".data x = false →
      replaceAll ":tbl".data repl (x ++ (":tbl".data ++ s))
        = x ++ replaceAll ":tbl".data repl (":tbl".data ++ s) := by
  intro x
  induction x with
  | nil => intro s _; rfl
  | cons c x'' ih =>
    intro s hx
    have hx' : (isPfx ":tbl".data (c :: x'') || hasSubstr ":tbl".data x'') = false := hx
    rw [Bool.or_eq_false_iff] at hx'
    have key : isPfx ":tbl".data (c :: (x'' ++ (":tbl".data ++ s))) = false := by
      by_cases hlen : 3 ≤ x''.length
      · have h4 : (":tbl".data).length ≤ (c :: x'').length := by
          rw [show ((":tbl".data).length : Nat) = 4 from rfl]
          simp only [List.length_cons]
          omega
        have happ := isPfx_append_of_length ":tbl".data (c :: x'') (":tbl".data ++ s) h4
        rw [show (c :: (x'' ++ (":tbl".data ++ s))) = (c :: x'') ++ (":tbl".data ++ s) from rfl,
            happ]
        exact hx'.1
      · exact isPfx_tbl_short_mismatch (c :: x'') (by simp)
          (by simp only [List.length_cons]; omega) ':' ('t' :: 'b' :: 'l' :: s) (by decide)
    rw [List.cons_append, replaceAll_cons_nomatch _ _ _ key, ih s hx'.2,
        ← List.cons_append]

/-- Full generality of multi-occurrence substitution: for ANY query text,
decomposed at its `:tbl` occurrences into pattern-free segments (which may
contain other colons), the replace rewrites exactly the occurrences. -/
theorem replaceAll_joinSep_tblfree (repl : List Char) :
    ∀ parts, (∀ p ∈ parts, hasSubstr ":tbl".data p = false) →
      replaceAll ":tbl".data repl (joinSep ":tbl".data parts) = joinSep repl parts := by
  intro parts
  induction parts with
  | nil => intro _; rfl
  | cons p ps ih =>
    intro hp
    cases ps with
    | nil => exact replaceAll_of_no_substr repl p (hp p (by simp))
    | cons q ps' =>
      show replaceAll ":tbl".data repl ((p ++ ":tbl".data) ++ joinSep ":tbl".data (q :: ps'))
          = (p ++ repl) ++ joinSep repl (q :: ps')
      rw [List.append_assoc p ":tbl".data, List.append_assoc p repl,
          replaceAll_append_tblfree repl p _ (hp p (by simp)),
          replaceAll_pat_prefix, ih (fun r hr => hp r (by simp [hr]))]

/-- Concatenation of `:tbl`-free texts stays `:tbl`-free when no occurrence
can straddle the boundary. -/
theorem hasSubstr_tbl_append_false :
    ∀ (x y : List Char), hasSubstr ":tbl".data x = false →
      hasSubstr ":tbl".data y = false →
      (∀ s' : List Char, s' ≠ [] → s'.length ≤ 3 → s' <:+ x →
        isPfx ":tbl".data (s' ++ y) = false) →
      hasSubstr ":tbl".data (x ++ y) = false := by
  intro x
  induction x with
  | nil => intro y _ hy _; exact hy
  | cons c x'' ih =>
    intro y hx hy hb
    have hx' : (isPfx ":tbl".data (c :: x'') || hasSubstr ":tbl".data x'') = false := hx
    rw [Bool.or_eq_false_iff] at hx'
    have hrec := ih y hx'.2 hy (fun s' h1 h2 h3 => hb s' h1 h2 (by
      obtain ⟨t, ht⟩ := h3
      exact ⟨c :: t, by rw [List.cons_append, ht]⟩))
    have hpfx : isPfx ":tbl".data (c :: (x'' ++ y)) = false := by
      by_cases hlen : 3 ≤ x''.length
      · have h4 : (":tbl".data).length ≤ (c :: x'').length := by
          rw [show ((":tbl".data).length : Nat) = 4 from rfl]
          simp only [List.length_cons]
          omega
        have happ := isPfx_append_of_length ":tbl".data (c :: x'') y h4
        rw [show (c :: (x'' ++ y)) = (c :: x'') ++ y from rfl, happ]
        exact hx'.1
      · exact hb (c :: x'') (by simp) (by simp only [List.length_cons]; omega) ⟨[], rfl⟩
    show (isPfx ":tbl".data (c :: (x'' ++ y)) || hasSubstr ":tbl".data (x'' ++ y)) = false
    rw [hpfx, hrec]
    rfl

/-- A tenant table name never completes a straddling `:tbl` occurrence: it
starts with `_`. -/
theorem isPfx_tbl_before_user_table (salt : String) (cid : Int) (J : List Char)
    (s' : List Char) (hne : s' ≠ []) (hlen : s'.length ≤ 3) :
    isPfx ":tbl".data (s' ++ ((user_table salt cid).data ++ J)) = false := by
  rw [user_table_data, List.append_assoc,
      show ("_user_data_".data : List Char) = '_' :: "user_data_".data from rfl,
      List.cons_append]
  exact isPfx_tbl_short_mismatch s' hne hlen '_' _ (by decide)

/-- After substitution of every occurrence, no `:tbl` occurrence survives:
segments are pattern-free, the table name contains no colon, and no
occurrence can straddle any boundary. -/
theorem hasSubstr_tbl_joinSep_user_table (salt : String) (cid : Int) :
    ∀ parts, (∀ p ∈ parts, hasSubstr ":tbl".data p = false) →
      hasSubstr ":tbl".data (joinSep (user_table salt cid).data parts) = false := by
  intro parts
  induction parts with
  | nil => intro _; rfl
  | cons p ps ih =>
    intro hp
    cases ps with
    | nil => exact hp p (by simp)
    | cons q ps' =>
      show hasSubstr ":tbl".data
          ((p ++ (user_table salt cid).data) ++ joinSep (user_table salt cid).data (q :: ps'))
          = false
      rw [List.append_assoc]
      apply hasSubstr_tbl_append_false
      · exact hp p (by simp)
      · apply hasSubstr_tbl_append_false
        · exact hasSubstr_tbl_false _ (user_table_no_colon salt cid)
        · exact ih (fun r hr => hp r (by simp [hr]))
        · intro s' h1 _ h3
          obtain ⟨d, s'', rfl⟩ : ∃ d s'', s' = d :: s'' := by
            cases s' with
            | nil => exact absurd rfl h1
            | cons d s'' => exact ⟨d, s'', rfl⟩
          have hd : d ∈ (user_table salt cid).data := by
            obtain ⟨t, ht⟩ := h3
            rw [← ht]
            simp
          exact isPfx_tbl_false d _ (user_table_no_colon salt cid d hd)
      · intro s' h1 h2 _
        exact isPfx_tbl_before_user_table salt cid _ s' h1 h2

/-! ## Tokenizer lemmas -/

theorem wordsAux_no_ws :
    ∀ (l : List Char), (∀ c ∈ l, c.isWhitespace = false) →
      ∀ cur, cur ≠ [] ∨ l ≠ [] → wordsAux l cur = [cur.reverse ++ l] := by
  intro l
  induction l with
  | nil =>
    intro _ cur h
    rcases h with h | h
    · simp [wordsAux, h]
    · exact absurd rfl h
  | cons c cs ih =>
    intro hl cur _
    have hc : c.isWhitespace = false := hl c (by simp)
    simp only [wordsAux, hc, Bool.false_eq_true, if_false]
    rw [ih (fun c' h' => hl c' (by simp [h'])) (c :: cur) (Or.inl (by simp))]
    simp

theorem wordsAux_word_space :
    ∀ (w : List Char), (∀ c ∈ w, c.isWhitespace = false) → w ≠ [] →
      ∀ rest cur, wordsAux (w ++ ' ' :: rest) cur = (cur.reverse ++ w) :: wordsAux rest [] := by
  intro w
  induction w with
  | nil => intro _ hne; exact absurd rfl hne
  | cons c w' ih =>
    intro hw _ rest cur
    have hc : c.isWhitespace = false := hw c (by simp)
    simp only [List.cons_append, wordsAux, hc, Bool.false_eq_true, if_false]
    cases w' with
    | nil =>
      simp only [List.nil_append, wordsAux]
      simp [List.reverse_cons]
    | cons d w'' =>
      have hih := ih (fun x hx => hw x (by simp [hx])) (by simp) rest (c :: cur)
      calc wordsAux ((d :: w'') ++ ' ' :: rest) (c :: cur)
          = ((c :: cur).reverse ++ (d :: w'')) :: wordsAux rest [] := hih
        _ = (cur.reverse ++ c :: d :: w'') :: wordsAux rest [] := by
            simp [List.reverse_cons, List.append_assoc]

theorem tokens_select_tbl (tbl : String) (h1 : tbl.data ≠ [])
    (h2 : ∀ c ∈ tbl.data, c.isWhitespace = false) :
    tokens ("SELECT * FROM " ++ tbl) = ["SELECT", "*", "FROM", tbl] := by
  show ((splitWs ("SELECT * FROM " ++ tbl).data).map String.mk) = _
  rw [String.data_append]
  have hre : "SELECT * FROM ".data ++ tbl.data
      = "SELECT".data ++ ' ' :: ("*".data ++ ' ' :: ("FROM".data ++ ' ' :: tbl.data)) := rfl
  rw [hre]
  unfold splitWs
  rw [wordsAux_word_space "SELECT".data (by decide) (by decide),
      wordsAux_word_space "*".data (by decide) (by decide),
      wordsAux_word_space "FROM".data (by decide) (by decide),
      wordsAux_no_ws tbl.data h2 [] (Or.inr h1)]
  rfl

/-! ## Injectivity of the decimal rendering (Python `str(int)`) -/

theorem natDigitsAux_eq (fuel : Nat) : ∀ n, n ≤ fuel → natDigitsAux fuel n = Nat.digits 10 n := by
  induction fuel with
  | zero =>
    intro n h
    have : n = 0 := Nat.le_zero.mp h
    subst this
    exact (Nat.digits_zero 10).symm
  | succ f ih =>
    intro n h
    cases n with
    | zero => exact (Nat.digits_zero 10).symm
    | succ m =>
      show (m + 1) % 10 :: natDigitsAux f ((m + 1) / 10) = _
      have hdiv : (m + 1) / 10 ≤ f := by
        have := Nat.div_lt_self (Nat.succ_pos m) (by norm_num : 1 < 10)
        omega
      rw [ih _ hdiv, Nat.digits_def' (by norm_num : (1 : Nat) < 10) (Nat.succ_pos m)]

theorem natDigits_eq (n : Nat) : natDigits n = Nat.digits 10 n :=
  natDigitsAux_eq n n (Nat.le_refl n)

theorem digitChar_mem (d : Nat) : digitChar d ∈ digitChars := by
  by_cases h : d < digitChars.length
  · rw [digitChar, List.getD_eq_getElem _ _ h]
    exact List.getElem_mem h
  · rw [digitChar, List.getD_eq_default _ _ (Nat.le_of_not_lt h)]
    decide

theorem natStr_chars (n : Nat) : ∀ c ∈ (natStr n).data, c ∈ digitChars := by
  intro c hc
  by_cases h : n = 0
  · subst h
    have : c ∈ ['0'] := hc
    simp at this
    subst this
    decide
  · rw [natStr, if_neg h] at hc
    have hc' : c ∈ ((natDigits n).map digitChar).reverse := hc
    rw [List.mem_reverse, List.mem_map] at hc'
    obtain ⟨d, _, hd⟩ := hc'
    exact hd ▸ digitChar_mem d

theorem natStr_ne_nil (n : Nat) : (natStr n).data ≠ [] := by
  by_cases h : n = 0
  · subst h
    decide
  · rw [natStr, if_neg h]
    intro hnil
    have h1 : (natDigits n).map digitChar = [] := by
      have h2 : (((natDigits n).map digitChar).reverse : List Char) = [] := hnil
      simpa using congrArg List.reverse h2
    have h2 : natDigits n = [] := List.map_eq_nil_iff.mp h1
    rw [natDigits_eq] at h2
    exact (Nat.digits_ne_nil_iff_ne_zero.mpr h) h2

theorem map_digitChar_inj :
    ∀ l1 l2 : List Nat, (∀ d ∈ l1, d < 10) → (∀ d ∈ l2, d < 10) →
      l1.map digitChar = l2.map digitChar → l1 = l2 := by
  intro l1
  induction l1 with
  | nil =>
    intro l2 _ _ h
    cases l2 with
    | nil => rfl
    | cons e u => simp at h
  | cons d t ih =>
    intro l2 h1 h2 h
    cases l2 with
    | nil => simp at h
    | cons e u =>
      simp only [List.map_cons, List.cons.injEq] at h
      obtain ⟨hde, htu⟩ := h
      have hinj : ∀ x, x < 10 → ∀ y, y < 10 → digitChar x = digitChar y → x = y := by decide
      have hd : d = e := hinj d (h1 d (by simp)) e (h2 e (by simp)) hde
      rw [hd, ih u (fun x hx => h1 x (by simp [hx])) (fun x hx => h2 x (by simp [hx])) htu]

theorem natStr_eq_zero_iff (n : Nat) (h : n ≠ 0) : natStr n ≠ "0" := by
  intro he
  rw [natStr, if_neg h] at he
  have hd : (((natDigits n).map digitChar).reverse : List Char) = ['0'] := congrArg String.data he
  have hX : (natDigits n).map digitChar = ['0'] := by
    simpa using congrArg List.reverse hd
  rw [natDigits_eq] at hX
  cases hdig : Nat.digits 10 n with
  | nil => rw [hdig] at hX; simp at hX
  | cons d t =>
    rw [hdig] at hX
    simp only [List.map_cons, List.cons.injEq] at hX
    obtain ⟨hd0, ht⟩ := hX
    have hlt : d < 10 := Nat.digits_lt_base (by norm_num) (hdig ▸ List.mem_cons_self d t)
    have hd' : d = 0 := by
      have : ∀ x, x < 10 → digitChar x = '0' → x = 0 := by decide
      exact this d hlt hd0
    have htn : t = [] := List.map_eq_nil_iff.mp ht
    have : n = 0 := by
      have h0 := Nat.ofDigits_digits 10 n
      rw [hdig, hd', htn] at h0
      simpa [Nat.ofDigits] using h0.symm
    exact h this

theorem natStr_inj (m n : Nat) (h : natStr m = natStr n) : m = n := by
  by_cases hm : m = 0 <;> by_cases hn : n = 0
  · rw [hm, hn]
  · rw [hm] at h
    exact absurd h.symm (natStr_eq_zero_iff n hn)
  · rw [hn] at h
    exact absurd h (natStr_eq_zero_iff m hm)
  · rw [natStr, if_neg hm, natStr, if_neg hn] at h
    have hd : (((natDigits m).map digitChar).reverse : List Char)
        = ((natDigits n).map digitChar).reverse := congrArg String.data h
    have hmap : (natDigits m).map digitChar = (natDigits n).map digitChar := by
      simpa using congrArg List.reverse hd
    have hdig : natDigits m = natDigits n := by
      apply map_digitChar_inj _ _ _ _ hmap
      · intro d hd'
        rw [natDigits_eq] at hd'
        exact Nat.digits_lt_base (by norm_num) hd'
      · intro d hd'
        rw [natDigits_eq] at hd'
        exact Nat.digits_lt_base (by norm_num) hd'
    have := congrArg (Nat.ofDigits 10) ((natDigits_eq m) ▸ (natDigits_eq n) ▸ hdig)
    rwa [Nat.ofDigits_digits, Nat.ofDigits_digits] at this

theorem intStr_inj (a b : Int) (h : intStr a = intStr b) : a = b := by
  cases a with
  | ofNat m =>
    cases b with
    | ofNat n => exact congrArg Int.ofNat (natStr_inj m n h)
    | negSucc n =>
      exfalso
      have hd := congrArg String.data h
      rw [show intStr (Int.negSucc n) = "-" ++ natStr (n + 1) from rfl,
          String.data_append] at hd
      have hmem : '-' ∈ (natStr m).data := by
        rw [show intStr (Int.ofNat m) = natStr m from rfl] at hd
        rw [hd]
        simp
      exact absurd (natStr_chars m '-' hmem) (by decide)
  | negSucc m =>
    cases b with
    | ofNat n =>
      exfalso
      have hd := congrArg String.data h.symm
      rw [show intStr (Int.negSucc m) = "-" ++ natStr (m + 1) from rfl,
          String.data_append] at hd
      have hmem : '-' ∈ (natStr n).data := by
        rw [show intStr (Int.ofNat n) = natStr n from rfl] at hd
        rw [hd]
        simp
      exact absurd (natStr_chars n '-' hmem) (by decide)
    | negSucc n =>
      have hd := congrArg String.data h
      rw [show intStr (Int.negSucc m) = "-" ++ natStr (m + 1) from rfl,
          show intStr (Int.negSucc n) = "-" ++ natStr (n + 1) from rfl,
          String.data_append, String.data_append] at hd
      have hdat : (natStr (m + 1)).data = (natStr (n + 1)).data := by
        simpa using hd
      have := natStr_inj _ _ (String.ext hdat)
      have hmn : m = n := by omega
      rw [hmn]

theorem hashInput_inj (salt : String) (a b : Int) (h : a ≠ b) :
    hashInput a salt ≠ hashInput b salt := by
  intro he
  apply h
  apply intStr_inj
  have hd := congrArg String.data he
  simp only [hashInput, String.data_append] at hd
  have h1 : (intStr a).data ++ "_".data = (intStr b).data ++ "_".data :=
    List.append_cancel_right hd
  exact String.ext (List.append_cancel_right h1)

theorem user_table_eq_iff (salt : String) (a b : Int) :
    user_table salt a = user_table salt b ↔
      sha256hex (hashInput a salt) = sha256hex (hashInput b salt) := by
  constructor
  · intro h
    have hd := congrArg String.data h
    rw [user_table_data, user_table_data] at hd
    exact String.ext (List.append_cancel_left hd)
  · intro h
    rw [user_table, user_table, h]

/-! ## `fn.split(".")[-1]` lemmas -/

theorem splitDots_ne_nil (l : List Char) : splitDots l ≠ [] := by
  cases l with
  | nil => simp [splitDots]
  | cons c cs =>
    simp only [splitDots]
    split_ifs <;> simp

theorem splitDots_no_dot (l : List Char) (h : ∀ c ∈ l, c ≠ '.') : splitDots l = [l] := by
  induction l with
  | nil => rfl
  | cons c cs ih =>
    have hc : c ≠ '.' := h c (by simp)
    simp only [splitDots, ih (fun x hx => h x (by simp [hx])), if_neg hc]
    rfl

theorem splitDots_len2 (l : List Char) (h : '.' ∈ l) : 2 ≤ (splitDots l).length := by
  induction l with
  | nil => simp at h
  | cons c cs ih =>
    by_cases hc : c = '.'
    · subst hc
      simp only [splitDots, eq_self_iff_true, if_true, List.length_cons]
      have hp := List.length_pos.mpr (splitDots_ne_nil cs)
      omega
    · have h' : '.' ∈ cs := by
        rcases List.mem_cons.mp h with h1 | h1
        · exact absurd h1.symm hc
        · exact h1
      have hr := ih h'
      simp only [splitDots, if_neg hc, List.length_cons]
      cases hsd : splitDots cs with
      | nil => exact absurd hsd (splitDots_ne_nil cs)
      | cons rh rt =>
        rw [hsd] at hr
        simp only [List.length_cons] at hr
        simp only [hsd, List.tail_cons]
        omega

theorem splitDots_last (l2 : List Char) (h2 : ∀ c ∈ l2, c ≠ '.') :
    ∀ l1, (splitDots (l1 ++ '.' :: l2)).getLastD [] = l2 := by
  intro l1
  induction l1 with
  | nil =>
    simp only [List.nil_append, splitDots, if_pos rfl, splitDots_no_dot l2 h2]
    rfl
  | cons c l1' ih =>
    have hlen := splitDots_len2 (l1' ++ '.' :: l2) (by simp)
    by_cases hc : c = '.'
    · subst hc
      simp only [List.cons_append, splitDots, eq_self_iff_true, if_true, List.getLastD_cons]
      cases hsd : splitDots (l1' ++ '.' :: l2) with
      | nil => exact absurd hsd (splitDots_ne_nil _)
      | cons rh rt =>
        rw [hsd] at ih
        rw [List.getLastD_cons] at ih
        rw [List.getLastD_cons]
        exact ih
    · simp only [List.cons_append, splitDots, if_neg hc]
      cases hsd : splitDots (l1' ++ '.' :: l2) with
      | nil => exact absurd hsd (splitDots_ne_nil _)
      | cons rh rt =>
        rw [hsd] at hlen ih
        cases rt with
        | nil => simp at hlen
        | cons x xs =>
          simp only [List.headD_cons, List.tail_cons]
          rw [List.getLastD_cons] at ih
          rw [List.getLastD_cons]
          exact ih

/-- `fn.split(".")[-1]` names the text after the final dot. -/
theorem lastSeg_after_final_dot (x y : String) (hy : ∀ c ∈ y.data, c ≠ '.') :
    lastSeg (String.mk (x.data ++ '.' :: y.data)) = y := by
  show String.mk ((splitDots (x.data ++ '.' :: y.data)).getLastD []) = y
  rw [splitDots_last y.data hy x.data]

/-! ## Fault-message and fault-policy lemmas of the gateway -/

theorem str_append_ne_empty (p q : String) (hp : p.data ≠ []) : p ++ q ≠ "" := by
  intro he
  have hd := congrArg String.data he
  rw [String.data_append] at hd
  exact hp (List.append_eq_nil.mp hd).1

theorem execStmt_err_ne_empty (s : Stmt) (st : DBState) (m : String)
    (h : (execStmt s st).2 = .err m) : m ≠ "" := by
  cases s with
  | select1 t =>
    simp only [execStmt] at h
    cases hl : List.lookup t st with
    | some tbl => rw [hl] at h; exact absurd h (by simp)
    | none =>
      rw [hl] at h
      have h' : EngineResult.err ("no such table: " ++ t) = EngineResult.err m := h
      injection h' with hm
      exact hm ▸ str_append_ne_empty "no such table: " t (by decide)
  | selectU t1 t2 =>
    simp only [execStmt] at h
    cases hl1 : List.lookup t1 st with
    | none =>
      rw [hl1] at h
      have h' : EngineResult.err ("no such table: " ++ t1) = EngineResult.err m := h
      injection h' with hm
      exact hm ▸ str_append_ne_empty "no such table: " t1 (by decide)
    | some tb1 =>
      rw [hl1] at h
      cases hl2 : List.lookup t2 st with
      | none =>
        rw [hl2] at h
        have h' : EngineResult.err ("no such table: " ++ t2) = EngineResult.err m := h
        injection h' with hm
        exact hm ▸ str_append_ne_empty "no such table: " t2 (by decide)
      | some tb2 => rw [hl2] at h; exact absurd h (by simp)
  | createT t =>
    simp only [execStmt] at h
    cases hl : List.lookup t st with
    | some tbl =>
      rw [hl] at h
      have h' : EngineResult.err ("table " ++ t ++ " already exists") = EngineResult.err m := h
      injection h' with hm
      exact hm ▸ str_append_ne_empty ("table " ++ t) " already exists"
        (by rw [String.data_append]; simp)
    | none => rw [hl] at h; exact absurd h (by simp)
  | commit => exact absurd h (by simp [execStmt])
  | bad =>
    have h' : EngineResult.err "syntax error" = EngineResult.err m := h
    injection h' with hm
    exact hm ▸ (by decide : ("syntax error" : String) ≠ "")

theorem queryFault_ne_empty (safe : Bool) (q : String) (st : DBState) (m : String)
    (h : queryFault safe q st = some m) : m ≠ "" := by
  unfold queryFault at h
  cases he : (engineExec q st).2 with
  | ok res =>
    rw [he] at h
    cases safe with
    | true => simp at h
    | false =>
      cases res with
      | some tbl => simp at h
      | none =>
        simp only [Bool.false_eq_true, if_false, Option.some.injEq] at h
        rw [← h]
        decide
  | err m' =>
    rw [he] at h
    have hm : m' = m := by simpa using h
    exact hm ▸ execStmt_err_ne_empty _ _ _ he

/-- How `DB.query` reports an execution fault, as a function of
`raise_on_error` (the `except` clause of src/bot.py lines 95-101). -/
theorem query_fault_policy (salt : String) (st : DBState) (qt : String)
    (cid : Option Int) (safe : Bool) (m : String)
    (h : queryFault safe (scopedText salt cid qt) st = some m) :
    (DB.query salt st qt cid safe true).2 = .raised m ∧
    (DB.query salt st qt cid safe false).2
      = (if m = sentinelText then .pyNone else .df (errorTable m)) := by
  unfold DB.query
  unfold queryFault at h
  cases he : (engineExec (scopedText salt cid qt) st).2 with
  | ok res =>
    rw [he] at h
    cases safe with
    | true => simp at h
    | false =>
      cases res with
      | some tbl => simp at h
      | none =>
        simp only [Bool.false_eq_true, if_false, Option.some.injEq] at h
        subst h
        constructor
        · show (queryRun false true (engineExec (scopedText salt cid qt) st)).2 = _
          have : (engineExec (scopedText salt cid qt) st)
              = ((engineExec (scopedText salt cid qt) st).1, EngineResult.ok none) := by
            rw [← he]
          rw [this]
          rfl
        · show (queryRun false false (engineExec (scopedText salt cid qt) st)).2 = _
          have : (engineExec (scopedText salt cid qt) st)
              = ((engineExec (scopedText salt cid qt) st).1, EngineResult.ok none) := by
            rw [← he]
          rw [this]
          simp [queryRun, handleFault]
  | err m' =>
    rw [he] at h
    have hm : m' = m := by simpa using h
    rw [hm] at he
    have hpair : (engineExec (scopedText salt cid qt) st)
        = ((engineExec (scopedText salt cid qt) st).1, EngineResult.err m) := by
      rw [← he]
    constructor
    · show (queryRun safe true (engineExec (scopedText salt cid qt) st)).2 = _
      rw [hpair]
      cases safe <;> rfl
    · show (queryRun safe false (engineExec (scopedText salt cid qt) st)).2 = _
      rw [hpair]
      cases safe <;> simp only [queryRun, handleFault, Bool.false_eq_true, if_false] <;>
        first
        | rfl
        | (split_ifs <;> rfl)

/-! ## Scoping and bootstrap helper lemmas -/

theorem scopedText_some (salt : String) (c : Int) (q : String) (h : c ≠ 0) :
    scopedText salt (some c) q = pyReplace q ":tbl" (user_table salt c) := by
  simp [scopedText, h]

theorem replaceAll_pat_only (repl : List Char) :
    replaceAll ":tbl".data repl ":tbl".data = repl := by
  have h := replaceAll_pat_prefix repl []
  rw [List.append_nil] at h
  exact h.trans (by rw [show replaceAll ":tbl".data repl [] = [] from rfl, List.append_nil])

/-- Scoping the canonical round-trip query text. -/
theorem scoped_select (salt : String) (c : Int) (h : c ≠ 0) :
    scopedText salt (some c) "SELECT * FROM :tbl" = "SELECT * FROM " ++ user_table salt c := by
  rw [scopedText_some _ _ _ h]
  apply String.ext
  show replaceAll ":tbl".data (user_table salt c).data "SELECT * FROM :tbl".data
      = ("SELECT * FROM " ++ user_table salt c).data
  rw [String.data_append]
  have h1 : "SELECT * FROM :tbl".data = "SELECT * FROM ".data ++ ":tbl".data := rfl
  rw [h1, replaceAll_append_no_colon _ _ _ (by decide), replaceAll_pat_only]

theorem post_init_file_exists (w : World) (p : String) :
    fileExists (DB.post_init w p).world p = true := by
  unfold DB.post_init
  by_cases h : fileExists w p = true
  · rw [if_pos h]
    exact h
  · rw [if_neg h]
    show ((setAssoc w p (DB.create_tables []).1).lookup p).isSome = true
    rw [lookup_setAssoc_self]
    rfl

/-- The bootstrap `CREATE TABLE DUMMY` statement: outcome of `create_tables`
as a function of whether the marker table already exists. -/
theorem create_tables_outcome (st : DBState) :
    (DB.create_tables st).2 =
      (match st.lookup "DUMMY" with
        | some _ => .df (errorTable "table DUMMY already exists")
        | none => .pyNone) := by
  have hp : parseStmt (tokens (scopedText "" none createStmt)) = .createT "DUMMY" := by decide
  show (queryRun false false
      (execStmt (parseStmt (tokens (scopedText "" none createStmt))) st)).2 = _
  rw [hp]
  cases hl : st.lookup "DUMMY" with
  | some tbl =>
    simp only [execStmt, hl, queryRun, handleFault, Bool.false_eq_true, if_false]
    rw [show (("table " ++ "DUMMY" ++ " already exists") : String)
        = "table DUMMY already exists" from rfl,
      if_neg (by decide : ¬(("table DUMMY already exists" : String) = sentinelText))]
  | none =>
    simp only [execStmt, hl, queryRun, Bool.false_eq_true, if_false, handleFault,
      eq_self_iff_true, if_true]

/-! ## Claim theorems -/

/-- C3: tenant table naming. `user_table` is a pure function (repeated calls
with the same salt and identifier give the same string); distinct
identifiers always produce distinct hash inputs; two identifiers share a
table name exactly when their full-width SHA-256 hex digests collide (so
distinctness holds with overwhelming probability); and the name embeds the
full 64-character digest (total length 75). -/
theorem C3_user_table_naming (salt : String) (a b : Int) (h : a ≠ b) :
    user_table salt a = user_table salt a ∧
    hashInput a salt ≠ hashInput b salt ∧
    (user_table salt a = user_table salt b ↔
      sha256hex (hashInput a salt) = sha256hex (hashInput b salt)) ∧
    (user_table salt a).length = 75 :=
  ⟨rfl, hashInput_inj salt a b h, user_table_eq_iff salt a b, user_table_length salt a⟩

theorem C3_user_table_naming_witness :
    (1 : Int) ≠ 2 ∧
    (user_table "s" 1 = user_table "s" 1 ∧
     hashInput 1 "s" ≠ hashInput 2 "s" ∧
     (user_table "s" 1 = user_table "s" 2 ↔
       sha256hex (hashInput 1 "s") = sha256hex (hashInput 2 "s")) ∧
     (user_table "s" 1).length = 75) :=
  ⟨by decide, C3_user_table_naming "s" 1 2 (by decide)⟩

/-- C5: scoping totality over occurrences. For a tenant whose identifier is
accepted for scoping (nonzero truthiness), ANY query text in which the
placeholder `:tbl` occurs two or more times — written as the segments
between consecutive occurrences, each free of the placeholder itself but
otherwise arbitrary (other colons, e.g. named parameters such as `:p`, are
allowed) — has every occurrence replaced by the tenant's table name, and no
occurrence of the placeholder survives in the result. Since `str.replace`
splits the text exactly at its non-overlapping occurrences, every query
text with two or more occurrences is of this form. -/
theorem C5_scoping_total (salt : String) (c : Int) (hc : c ≠ 0)
    (parts : List (List Char)) (_hlen : 3 ≤ parts.length)
    (hp : ∀ p ∈ parts, hasSubstr ":tbl".data p = false) :
    scopedText salt (some c) (String.mk (joinSep ":tbl".data parts))
        = String.mk (joinSep (user_table salt c).data parts) ∧
    hasSubstr ":tbl".data
      (scopedText salt (some c) (String.mk (joinSep ":tbl".data parts))).data = false := by
  have heq : scopedText salt (some c) (String.mk (joinSep ":tbl".data parts))
      = String.mk (joinSep (user_table salt c).data parts) := by
    rw [scopedText_some _ _ _ hc]
    apply String.ext
    show replaceAll ":tbl".data (user_table salt c).data (joinSep ":tbl".data parts)
        = joinSep (user_table salt c).data parts
    exact replaceAll_joinSep_tblfree _ parts hp
  refine ⟨heq, ?_⟩
  rw [heq]
  exact hasSubstr_tbl_joinSep_user_table salt c parts hp

theorem C5_scoping_total_witness :
    ((1 : Int) ≠ 0 ∧
     3 ≤ ([("SELECT :p FROM ").data, (" JOIN ").data, (" WHERE y = :q").data] :
        List (List Char)).length ∧
     (∀ p ∈ ([("SELECT :p FROM ").data, (" JOIN ").data, (" WHERE y = :q").data] :
        List (List Char)), hasSubstr ":tbl".data p = false)) ∧
    (scopedText "s" (some 1) (String.mk (joinSep ":tbl".data
        [("SELECT :p FROM ").data, (" JOIN ").data, (" WHERE y = :q").data]))
      = String.mk (joinSep (user_table "s" 1).data
        [("SELECT :p FROM ").data, (" JOIN ").data, (" WHERE y = :q").data]) ∧
     hasSubstr ":tbl".data
      (scopedText "s" (some 1) (String.mk (joinSep ":tbl".data
        [("SELECT :p FROM ").data, (" JOIN ").data, (" WHERE y = :q").data]))).data
        = false) :=
  ⟨⟨by decide, by decide, by decide⟩,
   C5_scoping_total "s" 1 (by decide) _ (by decide) (by decide)⟩

/-- C4 as stated is false on the code: the integer 0 is a supplied tenant
identifier, but Python's `if chat_id:` treats it as falsy, so the
placeholder is not rewritten (the text is returned unchanged, while an
actual rewrite would have produced a different text). -/
theorem C4_counterexample :
    scopedText "s" (some 0) "SELECT * FROM :tbl" = "SELECT * FROM :tbl" ∧
    pyReplace "SELECT * FROM :tbl" ":tbl" (user_table "s" 0) ≠ "SELECT * FROM :tbl" := by
  exact ⟨rfl, by decide⟩

/-- C4 amended: for every supplied tenant identifier the truthiness check
accepts (any nonzero integer), `DB.query` behaves exactly as executing the
query text with every `:tbl` occurrence rewritten to that tenant's real
table name before execution. -/
theorem C4_scoping_amended (salt : String) (st : DBState) (qt : String) (c : Int)
    (safe roe : Bool) (h : c ≠ 0) :
    DB.query salt st qt (some c) safe roe
      = DB.query salt st (pyReplace qt ":tbl" (user_table salt c)) none safe roe := by
  unfold DB.query
  rw [scopedText_some _ _ _ h]
  rfl

theorem C4_scoping_amended_witness :
    (1 : Int) ≠ 0 ∧
    DB.query "s" [] ":tbl" (some 1) false false
      = DB.query "s" [] (pyReplace ":tbl" ":tbl" (user_table "s" 1)) none false false :=
  ⟨by decide, C4_scoping_amended "s" [] ":tbl" 1 false false (by decide)⟩

/-- C2 as stated is false on the code at tenant `T = 0`: the upload goes to
tenant 0's table, but `if chat_id:` skips scoping for the falsy identifier
0, so the query executes with the literal table name `:tbl` and raises
`no such table` instead of returning the two ingested rows. -/
theorem C2_counterexample :
    (DB.query "s"
        (DB.upload_df "s" []
          ⟨["name", "age"], [[Value.str "alice", Value.num 30],
            [Value.str "bob", Value.num 25]]⟩ 0)
        "SELECT * FROM :tbl" (some 0) false true).2
      = .raised "no such table: :tbl" := by
  decide

/-- C2 amended: for every tenant whose identifier is nonzero (accepted by
the truthiness check) and whose table is previously absent, ingesting the
Dataset `[name, age] / [("alice", 30), ("bob", 25)]` and then querying
`SELECT * FROM :tbl` scoped to that tenant returns exactly those two rows,
in insertion order. -/
theorem C2_round_trip (salt : String) (T : Int) (st : DBState) (hT : T ≠ 0)
    (hfresh : st.lookup (user_table salt T) = none) :
    (DB.query salt
        (DB.upload_df salt st
          ⟨["name", "age"], [[Value.str "alice", Value.num 30],
            [Value.str "bob", Value.num 25]]⟩ T)
        "SELECT * FROM :tbl" (some T) false true).2
      = .df ⟨["name", "age"], [[Value.str "alice", Value.num 30],
          [Value.str "bob", Value.num 25]]⟩ := by
  unfold DB.query
  rw [scoped_select _ _ hT]
  show (queryRun false true
      (execStmt (parseStmt (tokens ("SELECT * FROM " ++ user_table salt T))) _)).2 = _
  rw [tokens_select_tbl (user_table salt T) (user_table_ne_nil _ _) (user_table_no_ws _ _)]
  have hps : parseStmt ["SELECT", "*", "FROM", user_table salt T]
      = .select1 (user_table salt T) := by
    show (if ("SELECT" : String) = "SELECT" ∧ ("*" : String) = "*" ∧ ("FROM" : String) = "FROM"
        then Stmt.select1 (user_table salt T)
        else if ("SELECT" : String) = "CREATE" ∧ ("*" : String) = "TABLE"
        then Stmt.createT "FROM" else Stmt.bad) = Stmt.select1 (user_table salt T)
    rw [if_pos ⟨rfl, rfl, rfl⟩]
  rw [hps]
  have hup : DB.upload_df salt st
      ⟨["name", "age"], [[Value.str "alice", Value.num 30],
        [Value.str "bob", Value.num 25]]⟩ T
      = setAssoc st (user_table salt T)
        ⟨["name", "age"], [[Value.str "alice", Value.num 30],
          [Value.str "bob", Value.num 25]]⟩ := by
    simp only [DB.upload_df, hfresh]
  rw [hup]
  simp only [execStmt, lookup_setAssoc_self]
  rfl

theorem C2_round_trip_witness :
    ((1 : Int) ≠ 0 ∧ ([] : DBState).lookup (user_table "s" 1) = none) ∧
    (DB.query "s"
        (DB.upload_df "s" []
          ⟨["name", "age"], [[Value.str "alice", Value.num 30],
            [Value.str "bob", Value.num 25]]⟩ 1)
        "SELECT * FROM :tbl" (some 1) false true).2
      = .df ⟨["name", "age"], [[Value.str "alice", Value.num 30],
          [Value.str "bob", Value.num 25]]⟩ :=
  ⟨⟨by decide, rfl⟩, C2_round_trip "s" 1 [] (by decide) rfl⟩

/-- C6: raises-iff error policy. When execution of the (scoped) query
faults with a description other than the sentinel text, `DB.query` raises
exactly that fault when `raise_on_error` is true (producing no Dataset),
and with `raise_on_error = false` it does not raise but returns the
one-row, one-column Dataset whose sole value is the non-empty fault
description. -/
theorem C6_error_policy (salt : String) (st : DBState) (qt : String)
    (cid : Option Int) (safe : Bool) (m : String)
    (hf : queryFault safe (scopedText salt cid qt) st = some m)
    (hm : m ≠ sentinelText) :
    (DB.query salt st qt cid safe true).2 = .raised m ∧
    (DB.query salt st qt cid safe false).2 = .df (errorTable m) ∧
    m ≠ "" := by
  obtain ⟨h1, h2⟩ := query_fault_policy salt st qt cid safe m hf
  exact ⟨h1, by rw [h2, if_neg hm], queryFault_ne_empty safe _ st m hf⟩

theorem C6_error_policy_witness :
    (queryFault false (scopedText "" none "BOGUS") [] = some "syntax error" ∧
     ("syntax error" : String) ≠ sentinelText) ∧
    ((DB.query "" [] "BOGUS" none false true).2 = .raised "syntax error" ∧
     (DB.query "" [] "BOGUS" none false false).2 = .df (errorTable "syntax error") ∧
     ("syntax error" : String) ≠ "") :=
  ⟨⟨by decide, by decide⟩,
   C6_error_policy "" [] "BOGUS" none false "syntax error" (by decide) (by decide)⟩

/-- C7: sentinel behavior. When execution of the (scoped) query faults with
description exactly equal to the sentinel text `'NoneType' object is not
iterable` and `raise_on_error` is false, `DB.query` returns the absent
result (Python `None`) instead of a one-row error Dataset, and does not
raise. -/
theorem C7_sentinel (salt : String) (st : DBState) (qt : String)
    (cid : Option Int) (safe : Bool)
    (hf : queryFault safe (scopedText salt cid qt) st = some sentinelText) :
    (DB.query salt st qt cid safe false).2 = .pyNone := by
  obtain ⟨_, h2⟩ := query_fault_policy salt st qt cid safe sentinelText hf
  rw [h2, if_pos rfl]

theorem C7_sentinel_witness :
    queryFault false (scopedText "" none "COMMIT") [] = some sentinelText ∧
    (DB.query "" [] "COMMIT" none false false).2 = .pyNone :=
  ⟨by decide, C7_sentinel "" [] "COMMIT" none false (by decide)⟩

/-- C8: idempotent bootstrap. Opening a storage path runs the
schema-bootstrap step exactly when the file did not previously exist, and a
second open of the same path never re-runs the bootstrap and performs no
bootstrap query at all (so it cannot fail because the marker table already
exists). -/
theorem C8_idempotent_bootstrap (w : World) (p : String) :
    (DB.post_init w p).ranBootstrap = !(fileExists w p) ∧
    (DB.post_init (DB.post_init w p).world p).ranBootstrap = false ∧
    (DB.post_init (DB.post_init w p).world p).bootOutcome = none := by
  have hex : fileExists (DB.post_init w p).world p = true := post_init_file_exists w p
  have hsecond : ∀ w' : World, fileExists w' p = true →
      (DB.post_init w' p).ranBootstrap = false ∧ (DB.post_init w' p).bootOutcome = none := by
    intro w' h
    unfold DB.post_init
    rw [if_pos h]
    exact ⟨rfl, rfl⟩
  refine ⟨?_, (hsecond _ hex).1, (hsecond _ hex).2⟩
  unfold DB.post_init
  cases h : fileExists w p <;> simp

/-- C9: unsupported format. An upload whose declared filename ends in none
of `.csv`, `.xlsx`, `.xls` fails with the `TypeError` whose message names
the text after the final dot of the filename, and the filesystem — hence
every database file — is left untouched (no connection is opened, no
storage written). The second conjunct checks that `fn.split(".")[-1]` is
exactly the text after the final dot. -/
theorem C9_unsupported_format (w : World) (salt fn : String) (parsed : Table) (cid : Int)
    (h1 : pyEndsWith fn ".csv" = false) (h2 : pyEndsWith fn ".xlsx" = false)
    (h3 : pyEndsWith fn ".xls" = false) :
    upload_csv w salt fn parsed cid
        = (w, .unsupported ("Unsupported file type: " ++ lastSeg fn)) ∧
    (∀ x y : String, (∀ c ∈ y.data, c ≠ '.') →
      lastSeg (String.mk (x.data ++ '.' :: y.data)) = y) := by
  constructor
  · have hcm : chooseMeth fn = none := by
      unfold chooseMeth pyDictBool
      rw [h1, h2, h3]
      rfl
    unfold upload_csv
    rw [hcm]
  · exact fun x y hy => lastSeg_after_final_dot x y hy

theorem C9_unsupported_format_witness :
    (pyEndsWith "data.txt" ".csv" = false ∧
     pyEndsWith "data.txt" ".xlsx" = false ∧
     pyEndsWith "data.txt" ".xls" = false) ∧
    upload_csv [] "s" "data.txt" ⟨[], []⟩ 1
        = ([], .unsupported ("Unsupported file type: " ++ lastSeg "data.txt")) ∧
    lastSeg "data.txt" = "txt" :=
  ⟨⟨by decide, by decide, by decide⟩,
   (C9_unsupported_format [] "s" "data.txt" ⟨[], []⟩ 1 (by decide) (by decide) (by decide)).1,
   by decide⟩

/-- C10: bootstrap faults are swallowed. `create_tables` issues the marker
CREATE with `raise_on_error=False`, so for every connection state it never
raises; and whenever the engine faults on the CREATE (the marker table
already exists), the fault becomes the one-row error Dataset — which the
source discards. -/
theorem C10_bootstrap_swallows (st : DBState) (m : String) :
    (∀ m', (DB.create_tables st).2 ≠ .raised m') ∧
    ((engineExec createStmt st).2 = .err m →
      (DB.create_tables st).2 = .df (errorTable m)) := by
  constructor
  · intro m'
    rw [create_tables_outcome]
    cases st.lookup "DUMMY" <;> simp
  · intro he
    have hp : parseStmt (tokens createStmt) = .createT "DUMMY" := by decide
    have he' : (execStmt (Stmt.createT "DUMMY") st).2 = .err m := by
      rw [← hp]
      exact he
    cases hl : st.lookup "DUMMY" with
    | none =>
      exfalso
      simp only [execStmt, hl] at he'
      exact absurd he' (by simp)
    | some tbl =>
      simp only [execStmt, hl] at he'
      have h'' : EngineResult.err ("table " ++ "DUMMY" ++ " already exists")
          = EngineResult.err m := he'
      injection h'' with hm
      rw [create_tables_outcome, hl, ← hm]
      rfl

theorem C10_bootstrap_swallows_witness :
    ((engineExec createStmt [("DUMMY", (⟨["A"], []⟩ : Table))]).2
        = .err "table DUMMY already exists") ∧
    ((∀ m', (DB.create_tables [("DUMMY", (⟨["A"], []⟩ : Table))]).2 ≠ .raised m') ∧
     (DB.create_tables [("DUMMY", (⟨["A"], []⟩ : Table))]).2
        = .df (errorTable "table DUMMY already exists")) := by
  have h := C10_bootstrap_swallows [("DUMMY", (⟨["A"], []⟩ : Table))]
    "table DUMMY already exists"
  exact ⟨by decide, h.1, h.2 (by decide)⟩

/-- C1 as stated is false on the code: with salt `"s"`, tenant A = 1 and
tenant B = 2, the query text `SELECT * FROM :tbl UNION ALL SELECT * FROM
<B's table>` contains the placeholder and is scoped with A's identifier,
yet its result contains the row `["y"]` that was ingested only under B's
table (it is not among A's ingested rows), and ingesting under B changes
the result of A's scoped query (without B's upload the same query raises
`no such table`). -/
theorem C1_isolation_counterexample :
    hasSubstr ":tbl".data
      ("SELECT * FROM :tbl UNION ALL SELECT * FROM " ++ user_table "s" 2).data = true ∧
    (DB.query "s"
        (DB.upload_df "s" (DB.upload_df "s" [] ⟨["v"], [[Value.str "x"]]⟩ 1)
          ⟨["v"], [[Value.str "y"]]⟩ 2)
        ("SELECT * FROM :tbl UNION ALL SELECT * FROM " ++ user_table "s" 2)
        (some 1) false true).2
      = .df ⟨["v"], [[Value.str "x"], [Value.str "y"]]⟩ ∧
    [Value.str "y"] ∉ (⟨["v"], [[Value.str "x"]]⟩ : Table).rows ∧
    (DB.query "s" (DB.upload_df "s" [] ⟨["v"], [[Value.str "x"]]⟩ 1)
        ("SELECT * FROM :tbl UNION ALL SELECT * FROM " ++ user_table "s" 2)
        (some 1) false true).2
      ≠ (DB.query "s"
          (DB.upload_df "s" (DB.upload_df "s" [] ⟨["v"], [[Value.str "x"]]⟩ 1)
            ⟨["v"], [[Value.str "y"]]⟩ 2)
          ("SELECT * FROM :tbl UNION ALL SELECT * FROM " ++ user_table "s" 2)
          (some 1) false true).2 :=
  ⟨by decide, by decide, by decide, by decide⟩

/-- C1 amended: tenant isolation holds for every scoped query that does not
itself reference tenant B's table name: whatever is ingested under B's
table leaves the outcome of A's query unchanged. -/
theorem C1_isolation_amended (salt : String) (st : DBState) (A : Option Int) (B : Int)
    (dfB : Table) (qt : String) (safe roe : Bool)
    (_hq : hasSubstr ":tbl".data qt.data = true)
    (href : user_table salt B ∉ referencedTables (scopedText salt A qt)) :
    (DB.query salt (DB.upload_df salt st dfB B) qt A safe roe).2
      = (DB.query salt st qt A safe roe).2 := by
  apply query_snd_congr
  show (execStmt (parseStmt (tokens (scopedText salt A qt))) (DB.upload_df salt st dfB B)).2
      = (execStmt (parseStmt (tokens (scopedText salt A qt))) st).2
  apply execStmt_frame
  intro t ht
  apply lookup_upload_ne
  intro hEq
  exact href (hEq ▸ ht)

theorem C1_isolation_amended_witness :
    (hasSubstr ":tbl".data ("SELECT * FROM :tbl").data = true ∧
     user_table "s" 2 ∉ referencedTables (scopedText "s" (some 1) "SELECT * FROM :tbl")) ∧
    (DB.query "s"
        (DB.upload_df "s" [(user_table "s" 1, (⟨["v"], [[Value.str "x"]]⟩ : Table))]
          ⟨["v"], [[Value.str "y"]]⟩ 2)
        "SELECT * FROM :tbl" (some 1) false true).2
      = (DB.query "s" [(user_table "s" 1, (⟨["v"], [[Value.str "x"]]⟩ : Table))]
          "SELECT * FROM :tbl" (some 1) false true).2 :=
  ⟨⟨by decide, by decide⟩,
   C1_isolation_amended "s" [(user_table "s" 1, ⟨["v"], [[Value.str "x"]]⟩)] (some 1) 2
     ⟨["v"], [[Value.str "y"]]⟩ "SELECT * FROM :tbl" false true (by decide) (by decide)⟩
